import Mathlib

/-!
Verification of the vosk-cli repository (two Python modules, `vosk_cli` and
`vosk_tui`) against its natural-language specification.  The pure decision
logic of the two scripts is shallowly embedded below: Python strings become
`String`, Python lists become `List`, fallible code returns `Except`, and the
environment (filesystem, audio device, model hub) is passed explicitly.
-/

set_option autoImplicit false

/-- Whitespace recognised by Python's `str.strip()` on ASCII text:
space, tab, newline, carriage return, vertical tab and form feed. -/
def pyIsSpace (c : Char) : Bool :=
  c = ' ' || c = '\t' || c = '\n' || c = '\r' || c = '\x0b' || c = '\x0c'

/-- Python's `s.strip()`: remove leading and trailing whitespace. -/
def pyStrip (s : String) : String :=
  String.mk (((s.data.dropWhile pyIsSpace).reverse.dropWhile pyIsSpace).reverse)

/-- Cap on the number of sentences shown at once
(`MAX_SENTENCES = 30` in both modules). -/
def MAX_SENTENCES : Nat := 30

/-- Python's `xs[-n:]`: the slice holding the last `min (xs.length) n`
elements of `xs`. -/
def lastSlice (n : Nat) (xs : List String) : List String :=
  xs.drop (xs.length - n)

/-- The `TextLog` dataclass: it stores the full sentence list. -/
structure TextLog where
  sentences : List String
deriving DecidableEq

/-- The sentence slice that `TextLog.__rich__` renders:
`self.sentences[-MAX_SENTENCES:]`. -/
def textLogView (sentences : List String) : List String :=
  lastSlice MAX_SENTENCES sentences

/-- `TextLog.__rich__`: the panel body is the newline join of the capped
slice of the stored sentences. -/
def TextLog.rich (tl : TextLog) : String :=
  String.intercalate "\n" (textLogView tl.sentences)

/-- A recognition result decoded from the recognizer's JSON: either a
finalized utterance (`rec.Result()["text"]`) or an in-progress one
(`rec.PartialResult()`). -/
inductive RecResult where
  | finalRes (text : String)
  | interimRes (text : String)
deriving DecidableEq

/-- The state the processing loop mutates: the `completed_sentences` list
and the content of the live-input panel. -/
structure LoopState where
  completedSentences : List String
  liveInput : String
deriving DecidableEq

/-- The formatted sentence-log entry
`f"[green][{timestamp}]:[reset] {sentence}"`. -/
def timestampEntry (ts sentence : String) : String :=
  "[green][" ++ ts ++ "]:[reset] " ++ sentence

/-- One iteration of the processing loop body of `main`, after a block has
been fed to the recognizer: on a finalized result the text is stripped and,
if non-empty, appended to `completed_sentences` as a timestamped entry; on
an in-progress result the live-input panel is replaced. -/
def loopStep (now : String) (st : LoopState) (r : RecResult) : LoopState :=
  match r with
  | .finalRes t =>
      let sentence := pyStrip t
      if sentence ≠ "" then
        { st with completedSentences :=
            st.completedSentences ++ [timestampEntry now sentence] }
      else
        st
  | .interimRes t => { st with liveInput := t }

/-- C2: a finalized recognition result whose text is non-empty after
stripping appends exactly one entry to the sentence log, namely the
timestamped entry built from the stripped text. -/
theorem final_nonempty_appends_one (st : LoopState) (now t : String)
    (h : pyStrip t ≠ "") :
    (loopStep now st (.finalRes t)).completedSentences =
      st.completedSentences ++ [timestampEntry now (pyStrip t)] := by
  simp [loopStep, h]

/-- Witness for `final_nonempty_appends_one` at a concrete input. -/
theorem final_nonempty_appends_one_witness :
    pyStrip "  hello world " ≠ "" ∧
    (loopStep "12:00:00" ⟨["old"], ""⟩ (.finalRes "  hello world ")).completedSentences =
      ["old"] ++ [timestampEntry "12:00:00" (pyStrip "  hello world ")] :=
  ⟨by decide, final_nonempty_appends_one ⟨["old"], ""⟩ "12:00:00" "  hello world " (by decide)⟩

/-- C3: a finalized recognition result whose text strips to the empty
string leaves the loop state, and in particular the sentence log,
completely unchanged. -/
theorem final_empty_leaves_state (st : LoopState) (now t : String)
    (h : pyStrip t = "") :
    loopStep now st (.finalRes t) = st := by
  simp [loopStep, h]

/-- Witness for `final_empty_leaves_state` at a concrete input. -/
theorem final_empty_leaves_state_witness :
    pyStrip "   \t " = "" ∧
    loopStep "12:00:00" ⟨["old"], "live"⟩ (.finalRes "   \t ") = ⟨["old"], "live"⟩ :=
  ⟨by decide, final_empty_leaves_state ⟨["old"], "live"⟩ "12:00:00" "   \t " (by decide)⟩

/-- C4: the rendered sentence-log view is exactly the most recent
`min length 30` entries, in order (a suffix of the full list), never more
than 30, and the `TextLog` value keeps the whole underlying list. -/
theorem textlog_view_caps_at_30 (xs : List String) :
    (textLogView xs).length = min xs.length MAX_SENTENCES ∧
    (textLogView xs).length ≤ MAX_SENTENCES ∧
    List.IsSuffix (textLogView xs) xs ∧
    (TextLog.mk xs).rich = String.intercalate "\n" (textLogView xs) ∧
    (TextLog.mk xs).sentences = xs := by
  refine ⟨?_, ?_, ?_, rfl, rfl⟩
  · simp [textLogView, lastSlice]
    omega
  · simp [textLogView, lastSlice]
    omega
  · exact List.drop_suffix _ _

/-- The environment the model-selection chain consults: whether
`Path(model).exists()` holds and (extended variant only) whether
`repo_exists(model)` holds. -/
structure ResolveEnv where
  pathExists : String → Bool
  repoExists : String → Bool

/-- The model the startup code constructs: the built-in default pack
(`Model(lang="en-us")`), a local path (`Model(args.model)`), the hub
download path (`load_model_from_huggingface`), or a named built-in pack
(`Model(lang=args.model)`). -/
inductive ModelChoice where
  | builtinDefault
  | localPath (p : String)
  | hubDownload (id : String)
  | builtinLang (l : String)
deriving DecidableEq

/-- The model-selection chain of `vosk_tui.main` (the extended variant):
absent identifier, then existing local path, then existing hub repository,
then named built-in pack; first match wins. -/
def selectModelTui (env : ResolveEnv) (model : Option String) : ModelChoice :=
  match model with
  | none => .builtinDefault
  | some id =>
      if env.pathExists id then .localPath id
      else if env.repoExists id then .hubDownload id
      else .builtinLang id

/-- The model-selection chain of `vosk_cli.main`: absent identifier, then
existing local path, then named built-in pack; first match wins. -/
def selectModelCli (env : ResolveEnv) (model : Option String) : ModelChoice :=
  match model with
  | none => .builtinDefault
  | some id =>
      if env.pathExists id then .localPath id
      else .builtinLang id

/-- C5: model resolution tries its cases in a fixed order with the first
match winning, in both variants: absent identifier gives the built-in
default, an existing local path is used directly (no remote lookup, even
when a repository of the same name exists), an existing hub repository
(extended variant only) triggers the download path, and anything else is a
named built-in pack. -/
theorem model_resolution_order (env : ResolveEnv) (id : String) :
    selectModelTui env none = .builtinDefault ∧
    selectModelCli env none = .builtinDefault ∧
    (env.pathExists id = true →
      selectModelTui env (some id) = .localPath id ∧
      selectModelCli env (some id) = .localPath id) ∧
    (env.pathExists id = false → env.repoExists id = true →
      selectModelTui env (some id) = .hubDownload id) ∧
    (env.pathExists id = false → env.repoExists id = false →
      selectModelTui env (some id) = .builtinLang id) ∧
    (env.pathExists id = false →
      selectModelCli env (some id) = .builtinLang id) := by
  refine ⟨rfl, rfl, ?_, ?_, ?_, ?_⟩
  · intro h
    exact ⟨by simp [selectModelTui, h], by simp [selectModelCli, h]⟩
  · intro h h2
    simp [selectModelTui, h, h2]
  · intro h h2
    simp [selectModelTui, h, h2]
  · intro h
    simp [selectModelCli, h]

/-- A concrete environment for exercising the model-selection chain:
exactly one local path and one hub repository exist. -/
def resolveEnvW : ResolveEnv :=
  { pathExists := fun s => s = "/tmp/model-dir",
    repoExists := fun s => s = "org/model-repo" }

/-- Witness for `model_resolution_order` at concrete inputs. -/
theorem model_resolution_order_witness :
    selectModelTui resolveEnvW (some "/tmp/model-dir") = .localPath "/tmp/model-dir" ∧
    selectModelTui resolveEnvW (some "org/model-repo") = .hubDownload "org/model-repo" ∧
    selectModelTui resolveEnvW (some "nl") = .builtinLang "nl" ∧
    selectModelCli resolveEnvW (some "nl") = .builtinLang "nl" :=
  ⟨((model_resolution_order resolveEnvW "/tmp/model-dir").2.2.1 (by decide)).1,
   (model_resolution_order resolveEnvW "org/model-repo").2.2.2.1 (by decide) (by decide),
   (model_resolution_order resolveEnvW "nl").2.2.2.2.1 (by decide) (by decide),
   (model_resolution_order resolveEnvW "nl").2.2.2.2.2 (by decide)⟩

/-- An exception reaching the top level of `main`: either a keyboard
interrupt or any other exception, identified by its type name. -/
inductive PyExc where
  | keyboardInterrupt
  | otherExc (name : String)
deriving DecidableEq

/-- The observable fate of the process when an exception escapes the body
of `main`. -/
inductive MainOutcome where
  | exited (code : Nat) (message : String)
  | raised (e : PyExc)
deriving DecidableEq

/-- The `try ... except KeyboardInterrupt` wrapper of `main` (identical in
both modules): a keyboard interrupt prints a farewell and exits with code
0; every other exception propagates. -/
def mainExceptionHandling : PyExc → MainOutcome
  | .keyboardInterrupt => .exited 0 "\nDone"
  | e => .raised e

/-- C7: a keyboard interrupt is the only exception treated as normal
termination (farewell message, exit code 0); every other exception
propagates uncaught. -/
theorem keyboard_interrupt_only_graceful :
    mainExceptionHandling .keyboardInterrupt = .exited 0 "\nDone" ∧
    ∀ n : String, mainExceptionHandling (.otherExc n) = .raised (.otherExc n) :=
  ⟨rfl, fun _ => rfl⟩

/-- Python's `int()` applied to a (non-integer) numeric value: truncation
toward zero.  The device's `default_samplerate` float is modelled as a
rational. -/
def pyInt (q : ℚ) : ℤ :=
  if 0 ≤ q then ⌊q⌋ else ⌈q⌉

/-- The `sd.query_devices(...)` record, reduced to the one field the code
reads. -/
structure DeviceInfo where
  defaultSamplerate : ℚ

/-- The parsed command-line arguments relevant to startup. -/
structure Args where
  device : Option String
  samplerate : Option ℤ
  model : Option String

/-- The immutable run configuration produced by startup, as used by the
stream, the recognizer and the footer. -/
structure RunConfig where
  device : Option String
  samplerate : ℤ
  model : Option String
deriving DecidableEq

/-- The samplerate fix-up at the top of `main`: `args.samplerate` is
overwritten with `int(device_info["default_samplerate"])` exactly when the
flag was not given. -/
def resolveSamplerate (flag : Option ℤ) (dev : DeviceInfo) : ℤ :=
  match flag with
  | some r => r
  | none => pyInt dev.defaultSamplerate

/-- The startup sequence of `main` up to opening the stream: the samplerate
is resolved first, so the configuration handed to the stream, the
recognizer and the footer already carries the resolved value. -/
def startupConfig (dev : DeviceInfo) (args : Args) : RunConfig :=
  { device := args.device,
    samplerate := resolveSamplerate args.samplerate dev,
    model := args.model }

/-- C9: when the `-r` (`--samplerate`) flag is unset the run configuration's samplerate
is the device's default rate truncated to an integer, and when it is set
the given integer is used unchanged; either way this is the value the rest
of startup sees. -/
theorem samplerate_resolution (dev : DeviceInfo) (args : Args) :
    (args.samplerate = none →
      (startupConfig dev args).samplerate = pyInt dev.defaultSamplerate) ∧
    (∀ r : ℤ, args.samplerate = some r →
      (startupConfig dev args).samplerate = r) := by
  constructor
  · intro h
    simp [startupConfig, resolveSamplerate, h]
  · intro r h
    simp [startupConfig, resolveSamplerate, h]

/-- Witness for `samplerate_resolution` at concrete inputs: an unset flag
picks up the device default 44100.9 truncated to 44100, a set flag of
16000 stays 16000. -/
theorem samplerate_resolution_witness :
    (startupConfig ⟨441009/10⟩ ⟨none, none, none⟩).samplerate = pyInt (441009/10) ∧
    (startupConfig ⟨441009/10⟩ ⟨none, some 16000, none⟩).samplerate = 16000 ∧
    pyInt (441009/10) = 44100 :=
  ⟨(samplerate_resolution ⟨441009/10⟩ ⟨none, none, none⟩).1 rfl,
   (samplerate_resolution ⟨441009/10⟩ ⟨none, some 16000, none⟩).2 16000 rfl,
   by norm_num [pyInt]⟩

/-- The three cells of the header grid row. -/
structure HeaderRow where
  left : String
  center : String
  right : String
deriving DecidableEq

/-- Python's `s.replace(":", repl)` for the single-character pattern the
source uses: every colon is replaced by `repl`. -/
def pyReplaceColon (repl : String) (s : String) : String :=
  String.mk ((s.data.map (fun c => if c = ':' then repl.data else [c])).flatten)

/-- `Header.__rich__`: two fixed cells plus the clock cell built from the
current `datetime.now().ctime()` string with every colon wrapped in blink
markup. -/
def headerRender (nowCtime : String) : HeaderRow :=
  { left := "Prifysgol Bangor a ffrindiau",
    center := "[bold]Vosk Live Demo[reset]",
    right := "[green]" ++ pyReplaceColon "[blink]:[/]" nowCtime }

/-- Helper for Python's format spec with a comma separator: on a reversed
digit list, insert a comma after every three digits. -/
def groupRev : List Char → List Char
  | a :: b :: c :: d :: rest => a :: b :: c :: ',' :: groupRev (d :: rest)
  | cs => cs

/-- Python's thousands-separator format of an integer (the source formats
the samplerate and block size this way). -/
def commaFormat (n : ℤ) : String :=
  (if n < 0 then "-" else "") ++
    String.mk (groupRev (toString n.natAbs).data.reverse).reverse

/-- `Footer.__rich__`: the parameter line built from the run
configuration; a falsy model (absent or empty) is shown as `en-us`. -/
def footerRender (cfg : RunConfig) : String :=
  String.intercalate " | "
    [ "Model: " ++ (match cfg.model with
        | some m => if m = "" then "en-us" else m
        | none => "en-us"),
      "Sample rate: " ++ commaFormat cfg.samplerate,
      "Block size: " ++ commaFormat 8000 ]

/-- The rendered content of the four panes of the layout. -/
structure Dashboard where
  header : HeaderRow
  log : String
  liveInput : String
  footer : String
deriving DecidableEq

/-- One full render of the dashboard: header from the current clock
string, sentence-log pane from the capped slice of the sentence list,
live-input pane from the partial text, footer from the run
configuration. -/
def renderDashboard (cfg : RunConfig) (sentences : List String)
    (liveText : String) (nowCtime : String) : Dashboard :=
  { header := headerRender nowCtime,
    log := String.intercalate "\n" (textLogView sentences),
    liveInput := liveText,
    footer := footerRender cfg }

/-- C8 counterexample: two renders with identical configuration, sentence
list and partial text but different clock readings differ (in the header
clock cell), so the render is not a function of configuration, sentences
and partial text alone. -/
theorem render_not_time_independent :
    renderDashboard ⟨none, 16000, none⟩ [] "" "Mon Oct 12 12:00:00 2026" ≠
      renderDashboard ⟨none, 16000, none⟩ [] "" "Mon Oct 12 12:00:01 2026" := by
  decide

/-- C8 (amended): rendering is a pure function of the run configuration,
the sentence list, the partial text and the current clock string; renders
with the clock held fixed are identical, and the clock affects only the
header's clock cell — the log pane, live-input pane, footer and the other
two header cells agree across any two clock readings. -/
theorem render_pure_function_given_time (cfg : RunConfig)
    (sentences : List String) (liveText : String) (t1 t2 : String) :
    renderDashboard cfg sentences liveText t1 =
      renderDashboard cfg sentences liveText t1 ∧
    (renderDashboard cfg sentences liveText t1).log =
      (renderDashboard cfg sentences liveText t2).log ∧
    (renderDashboard cfg sentences liveText t1).liveInput =
      (renderDashboard cfg sentences liveText t2).liveInput ∧
    (renderDashboard cfg sentences liveText t1).footer =
      (renderDashboard cfg sentences liveText t2).footer ∧
    (renderDashboard cfg sentences liveText t1).header.left =
      (renderDashboard cfg sentences liveText t2).header.left ∧
    (renderDashboard cfg sentences liveText t1).header.center =
      (renderDashboard cfg sentences liveText t2).header.center :=
  ⟨rfl, rfl, rfl, rfl, rfl, rfl⟩

/-- Python's `s.split(":", maxsplit)` scanner over the character list:
`fuel` counts the splits still allowed. -/
def pySplitColonAux : Nat → List Char → List Char → List String
  | _, [], acc => [String.mk acc.reverse]
  | 0, cs, acc => [String.mk (acc.reverse ++ cs)]
  | fuel + 1, c :: rest, acc =>
      if c = ':' then String.mk acc.reverse :: pySplitColonAux fuel rest []
      else pySplitColonAux (fuel + 1) rest (c :: acc)

/-- Python's `s.split(":", maxsplit=n)`. -/
def pySplitColon (maxsplit : Nat) (s : String) : List String :=
  pySplitColonAux maxsplit s.data []

/-- Number of colons in a character list. -/
def countColon : List Char → Nat
  | [] => 0
  | c :: rest => (if c = ':' then 1 else 0) + countColon rest

/-- Python's `s.removeprefix(p)`: drop `p` from the start of `s` when it is
a leading substring, else return `s` unchanged. -/
def removeStart (p s : String) : String :=
  if p.data.isPrefixOf s.data then String.mk (s.data.drop p.data.length) else s

/-- The final path component of a slash-separated path (the `name` of the
`Path` returned by the downloader). -/
def baseName (path : String) : String :=
  String.mk (path.data.reverse.takeWhile (fun c => decide (c ≠ '/'))).reverse

/-- Split a reversed character list at its first dot (i.e. the original
list at its last dot), returning the characters after and before it. -/
def splitLastDot : List Char → Option (List Char × List Char)
  | [] => none
  | c :: rest =>
      if c = '.' then some ([], rest)
      else (splitLastDot rest).map (fun p => (c :: p.1, p.2))

/-- Python's `Path(...).stem`: the file name with its last suffix removed;
a dot that is the first or the last character does not start a suffix. -/
def pyStem (name : String) : String :=
  match splitLastDot name.data.reverse with
  | some (afterRev, stemRev) =>
      if afterRev = [] ∨ stemRev = [] then name else String.mk stemRev.reverse
  | none => name

/-- Python's `s.split(".")[0]`: the characters before the first dot. -/
def headSplitDot (s : String) : String :=
  String.mk (s.data.takeWhile (fun c => decide (c ≠ '.')))

/-- The name of the extraction directory in
`load_model_from_huggingface`: `model_str_path.stem.split(".")[0]`. -/
def extractedDirName (archiveName : String) : String :=
  headSplitDot (pyStem archiveName)

/-- One top-level entry of the extraction directory, as seen by
`extracted_path.glob("*")`. -/
structure FileEntry where
  path : String
  isDir : Bool
deriving DecidableEq

/-- The hub environment `load_model_from_huggingface` interacts with: the
result of `fs.glob(f"{model_id}/*.tar.gz")`, the directory the downloaded
archive lands in, and the top-level entries the extraction produces. -/
structure HubEnv where
  tars : List String
  downloadDir : String
  extractedEntries : List FileEntry

/-- The ways `load_model_from_huggingface` can abort before downloading:
the descriptive `FileNotFoundError` for an archive-free repository, the
`ValueError` of unpacking a colon split of the wrong arity, and the
`UnboundLocalError` of reading `file_id` when it was never assigned. -/
inductive HubError where
  | fileNotFound (msg : String)
  | unpackValueError
  | unboundLocalFileId
deriving DecidableEq

/-- The outcome of a successful hub resolution: which file of which
repository is downloaded, where the archive is extracted, and the model
directory finally returned. -/
structure HubResolution where
  repoId : String
  fileId : String
  extractedPath : String
  finalPath : String
deriving DecidableEq

/-- `load_model_from_huggingface`: with a colon the identifier is split
into repository and file (`maxsplit=2`, unpacked into two names); without
one the repository's `*.tar.gz` archives are globbed — exactly one gives
the file to download, zero raises the descriptive `FileNotFoundError`, and
more than one constructs a `ValueError` WITHOUT raising it, so control
falls through to the download call where `file_id` is unbound.  The
downloaded archive is extracted into a sibling directory named
`stem.split(".")[0]`, and a sole extracted top-level directory is entered. -/
def loadModelFromHuggingface (env : HubEnv) (modelId : String) :
    Except HubError HubResolution :=
  let parsed : Except HubError (String × String) :=
    if modelId.data.contains ':' then
      match pySplitColon 2 modelId with
      | [m, f] => Except.ok (m, f)
      | _ => Except.error .unpackValueError
    else
      match env.tars with
      | [t] => Except.ok (modelId, removeStart "/" (removeStart modelId t))
      | [] => Except.error (.fileNotFound
          ("Could not locate a tar.gz in the repo " ++ modelId ++
            ". Use a colon after the model id to specify one"))
      | _ => Except.error .unboundLocalFileId
  match parsed with
  | .error e => .error e
  | .ok (m, f) =>
      let archiveName := baseName f
      let extractedPath := env.downloadDir ++ "/" ++ extractedDirName archiveName
      let finalPath :=
        match env.extractedEntries with
        | [e] => if e.isDir then e.path else extractedPath
        | _ => extractedPath
      .ok { repoId := m, fileId := f,
            extractedPath := extractedPath, finalPath := finalPath }

/-- A hub repository holding no archive at all. -/
def hubEnvNoTars : HubEnv :=
  { tars := [], downloadDir := "/cache", extractedEntries := [] }

/-- A hub repository holding two candidate archives. -/
def hubEnvTwoTars : HubEnv :=
  { tars := ["org/repo/a.tar.gz", "org/repo/b.tar.gz"],
    downloadDir := "/cache", extractedEntries := [] }

/-- C1: with zero archives resolution aborts with the descriptive
`FileNotFoundError` before any download, but with two archives the
constructed `ValueError` is never raised and resolution instead dies with
an `UnboundLocalError` on `file_id` — still before any download, yet
without the descriptive ambiguity error the code itself builds. -/
theorem ambiguous_archive_error_never_raised :
    loadModelFromHuggingface hubEnvNoTars "org/repo" =
      .error (.fileNotFound
        "Could not locate a tar.gz in the repo org/repo. Use a colon after the model id to specify one") ∧
    loadModelFromHuggingface hubEnvTwoTars "org/repo" =
      .error .unboundLocalFileId ∧
    HubError.unboundLocalFileId ≠ HubError.unpackValueError :=
  ⟨rfl, rfl, by decide⟩

/-- The archive stem in the sense of the specification: for the `*.tar.gz`
archives resolution handles, the file name with the `.tar.gz` extension
removed (and with its last suffix removed otherwise). -/
def specArchiveStem (name : String) : String :=
  if ".tar.gz".data.isSuffixOf name.data then
    String.mk (name.data.take (name.data.length - 7))
  else pyStem name

/-- A hub repository holding one archive whose base name contains a dot. -/
def hubEnvDotted : HubEnv :=
  { tars := ["org/repo/vosk-model-small-en-us-0.15.tar.gz"],
    downloadDir := "/cache", extractedEntries := [] }

/-- C6 counterexample: for the archive
`vosk-model-small-en-us-0.15.tar.gz` the extraction directory is
`/cache/vosk-model-small-en-us-0`, not a directory named after the archive
stem `vosk-model-small-en-us-0.15` — `stem.split(".")[0]` truncates at the
first dot of the stem. -/
theorem extraction_dir_truncates_at_first_dot :
    (loadModelFromHuggingface hubEnvDotted "org/repo").map
        (fun r => r.extractedPath) =
      .ok "/cache/vosk-model-small-en-us-0" ∧
    specArchiveStem (baseName "org/repo/vosk-model-small-en-us-0.15.tar.gz") =
      "vosk-model-small-en-us-0.15" ∧
    ("/cache/vosk-model-small-en-us-0" : String) ≠
      "/cache/" ++ specArchiveStem (baseName "org/repo/vosk-model-small-en-us-0.15.tar.gz") :=
  ⟨rfl, by decide, by decide⟩

/-- Taking while `p` holds stops no later than an element refuting `p`. -/
theorem takeWhile_append_stop (p : Char → Bool) (d : Char) (h : p d = false)
    (xs ys : List Char) :
    (xs ++ d :: ys).takeWhile p = xs.takeWhile p := by
  induction xs with
  | nil => simp [List.takeWhile, h]
  | cons a xs ih =>
      simp only [List.cons_append, List.takeWhile]
      cases hpa : p a <;> simp [hpa, ih]

/-- What a successful `splitLastDot` says about its input: the input is
the part after the (first) dot, the dot, then the rest, and the part
before the dot is dot-free. -/
theorem splitLastDot_eq (cs : List Char) :
    ∀ a s, splitLastDot cs = some (a, s) → cs = a ++ '.' :: s ∧ '.' ∉ a := by
  induction cs with
  | nil =>
      intro a s h
      simp [splitLastDot] at h
  | cons c rest ih =>
      intro a s h
      by_cases hc : c = '.'
      · subst hc
        simp [splitLastDot] at h
        obtain ⟨ha, hs⟩ := h
        subst ha
        subst hs
        simp
      · simp only [splitLastDot, if_neg hc] at h
        cases hrec : splitLastDot rest with
        | none =>
            rw [hrec] at h
            simp at h
        | some p =>
            obtain ⟨a', s'⟩ := p
            rw [hrec] at h
            simp at h
            obtain ⟨ha, hs⟩ := h
            obtain ⟨h1, h2⟩ := ih a' s' hrec
            refine ⟨?_, ?_⟩
            · rw [← ha, ← hs, h1]
              simp
            · rw [← ha]
              intro hmem
              rcases List.mem_cons.mp hmem with h3 | h3
              · exact hc h3.symm
              · exact h2 h3

/-- The characters before the first dot survive `Path.stem`: truncating
the stem at its first dot is the same as truncating the whole file name at
its first dot. -/
theorem headSplitDot_pyStem (name : String) :
    headSplitDot (pyStem name) = headSplitDot name := by
  cases hsl : splitLastDot name.data.reverse with
  | none => simp [pyStem, hsl]
  | some p =>
      obtain ⟨a, s⟩ := p
      by_cases hdeg : a = [] ∨ s = []
      · simp [pyStem, hsl, hdeg]
      · have hstem : pyStem name = String.mk s.reverse := by
          unfold pyStem
          rw [hsl]
          exact if_neg hdeg
        obtain ⟨heq, -⟩ := splitLastDot_eq _ a s hsl
        have hdata : name.data = s.reverse ++ '.' :: a.reverse := by
          have h2 := congrArg List.reverse heq
          simpa using h2
        rw [hstem]
        unfold headSplitDot
        rw [hdata, takeWhile_append_stop _ '.' (by decide)]

/-- C6 (amended): for a colon-free identifier whose repository holds
exactly one archive, resolution downloads that archive (with the
repository prefix stripped from the globbed path), extracts it into a
sibling directory under the download directory named after the archive
file name truncated at its FIRST dot, and returns the sole extracted
top-level entry when it is a directory, else the extraction directory
itself. -/
theorem single_archive_resolution (env : HubEnv) (mid t : String)
    (hc : mid.data.contains ':' = false) (ht : env.tars = [t]) :
    ∃ r, loadModelFromHuggingface env mid = .ok r ∧
      r.repoId = mid ∧
      r.fileId = removeStart "/" (removeStart mid t) ∧
      r.extractedPath =
        env.downloadDir ++ "/" ++ headSplitDot (baseName r.fileId) ∧
      (∀ e, env.extractedEntries = [e] → e.isDir = true →
        r.finalPath = e.path) ∧
      (∀ e, env.extractedEntries = [e] → e.isDir = false →
        r.finalPath = r.extractedPath) ∧
      (env.extractedEntries.length ≠ 1 → r.finalPath = r.extractedPath) := by
  simp only [loadModelFromHuggingface, hc, ht, Bool.false_eq_true, if_false]
  refine ⟨_, rfl, rfl, rfl, ?_, ?_, ?_, ?_⟩
  · simp [extractedDirName, headSplitDot_pyStem]
  · intro e he hdir
    rw [he]
    simp [hdir]
  · intro e he hdir
    rw [he]
    simp [hdir]
  · intro hlen
    cases hent : env.extractedEntries with
    | nil => rfl
    | cons e es =>
        cases es with
        | nil =>
            rw [hent] at hlen
            simp at hlen
        | cons e2 es2 => rfl

/-- A hub repository with one archive whose extraction yields a single
inner directory. -/
def hubEnvSingle : HubEnv :=
  { tars := ["org/repo/model.tar.gz"], downloadDir := "/cache",
    extractedEntries := [⟨"/cache/model/inner", true⟩] }

/-- Witness for `single_archive_resolution` at a concrete repository. -/
theorem single_archive_resolution_witness :
    ∃ r, loadModelFromHuggingface hubEnvSingle "org/repo" = .ok r ∧
      r.repoId = "org/repo" ∧
      r.fileId = removeStart "/" (removeStart "org/repo" "org/repo/model.tar.gz") ∧
      r.extractedPath =
        hubEnvSingle.downloadDir ++ "/" ++ headSplitDot (baseName r.fileId) ∧
      (∀ e, hubEnvSingle.extractedEntries = [e] → e.isDir = true →
        r.finalPath = e.path) ∧
      (∀ e, hubEnvSingle.extractedEntries = [e] → e.isDir = false →
        r.finalPath = r.extractedPath) ∧
      (hubEnvSingle.extractedEntries.length ≠ 1 →
        r.finalPath = r.extractedPath) :=
  single_archive_resolution hubEnvSingle "org/repo" "org/repo/model.tar.gz"
    (by decide) rfl

/-- A colon-free scan consumes no split budget: the whole remainder comes
back as a single piece appended to the accumulator. -/
theorem pySplitColonAux_no_colon (cs : List Char) :
    ∀ fuel acc, countColon cs = 0 →
      pySplitColonAux fuel cs acc = [String.mk (acc.reverse ++ cs)] := by
  induction cs with
  | nil =>
      intro fuel acc _
      cases fuel <;> simp [pySplitColonAux]
  | cons c rest ih =>
      intro fuel acc h
      have hc : ¬c = ':' := by
        intro hc
        simp [countColon, hc] at h
      have hrest : countColon rest = 0 := by
        simpa [countColon, hc] using h
      cases fuel with
      | zero => simp [pySplitColonAux]
      | succ f =>
          rw [pySplitColonAux, if_neg hc, ih (f + 1) (c :: acc) hrest]
          simp

/-- With one split left and at least one colon ahead, the scan yields
exactly two pieces. -/
theorem pySplitColonAux_fuel1_colon (cs : List Char) :
    ∀ acc, 1 ≤ countColon cs →
      ∃ u v, pySplitColonAux 1 cs acc = [u, v] := by
  induction cs with
  | nil =>
      intro acc h
      simp [countColon] at h
  | cons c rest ih =>
      intro acc h
      by_cases hc : c = ':'
      · subst hc
        refine ⟨String.mk acc.reverse, String.mk rest, ?_⟩
        rw [pySplitColonAux, if_pos rfl]
        congr 1
        cases rest <;> simp [pySplitColonAux]
      · have hrest : 1 ≤ countColon rest := by
          simpa [countColon, hc] using h
        obtain ⟨u, v, huv⟩ := ih (c :: acc) hrest
        exact ⟨u, v, by rw [pySplitColonAux, if_neg hc, huv]⟩

/-- The scanned predicate of the colon split: true away from colons. -/
def notColon (c : Char) : Bool := c ≠ ':'

/-- With two splits allowed and exactly one colon present, the scan
returns the part before the colon (after the accumulator) and the part
after it. -/
theorem pySplitColonAux_one_colon (cs : List Char) :
    ∀ acc, countColon cs = 1 →
      pySplitColonAux 2 cs acc =
        [String.mk (acc.reverse ++ cs.takeWhile notColon),
         String.mk ((cs.dropWhile notColon).tail)] := by
  induction cs with
  | nil =>
      intro acc h
      simp [countColon] at h
  | cons c rest ih =>
      intro acc h
      by_cases hc : c = ':'
      · subst hc
        have hrest : countColon rest = 0 := by
          simpa [countColon] using h
        rw [pySplitColonAux, if_pos rfl,
          pySplitColonAux_no_colon rest 1 [] hrest]
        simp [List.takeWhile, List.dropWhile, notColon]
      · have hrest : countColon rest = 1 := by
          simpa [countColon, hc] using h
        rw [pySplitColonAux, if_neg hc, ih (c :: acc) hrest]
        simp [List.takeWhile, List.dropWhile, notColon, hc]

/-- With two splits allowed and at least two colons present, the scan
returns exactly three pieces. -/
theorem pySplitColonAux_two_colons (cs : List Char) :
    ∀ acc, 2 ≤ countColon cs →
      ∃ u v w, pySplitColonAux 2 cs acc = [u, v, w] := by
  induction cs with
  | nil =>
      intro acc h
      simp [countColon] at h
  | cons c rest ih =>
      intro acc h
      by_cases hc : c = ':'
      · subst hc
        have hrest : 1 ≤ countColon rest := by
          simp [countColon] at h
          omega
        obtain ⟨u, v, huv⟩ := pySplitColonAux_fuel1_colon rest [] hrest
        exact ⟨String.mk acc.reverse, u, v, by
          rw [pySplitColonAux, if_pos rfl, huv]⟩
      · have hrest : 2 ≤ countColon rest := by
          simpa [countColon, hc] using h
        obtain ⟨u, v, w, huvw⟩ := ih (c :: acc) hrest
        exact ⟨u, v, w, by rw [pySplitColonAux, if_neg hc, huvw]⟩

/-- A positive colon count makes the Python membership test true. -/
theorem countColon_pos_contains (cs : List Char) (h : 1 ≤ countColon cs) :
    cs.contains ':' = true := by
  induction cs with
  | nil => simp [countColon] at h
  | cons c rest ih =>
      by_cases hc : c = ':'
      · subst hc
        simp [List.contains_cons]
      · have hrest : 1 ≤ countColon rest := by
          simpa [countColon, hc] using h
        have hmem : ':' ∈ rest := by simpa using ih hrest
        simp [List.contains_cons, hmem]

/-- C10: an identifier with exactly one colon is split into the repository
id before it and the downloaded file after it, for any hub state; an
identifier with two or more colons makes the two-name unpacking of the
three-way split fail, so resolution errors out instead of using the text
after the first colon as the file qualifier. -/
theorem colon_qualifier_handling (env : HubEnv) (mid : String) :
    (countColon mid.data = 1 →
      ∃ r, loadModelFromHuggingface env mid = .ok r ∧
        r.repoId = String.mk (mid.data.takeWhile notColon) ∧
        r.fileId = String.mk ((mid.data.dropWhile notColon).tail)) ∧
    (2 ≤ countColon mid.data →
      loadModelFromHuggingface env mid = .error .unpackValueError) := by
  constructor
  · intro h
    have hcont := countColon_pos_contains mid.data (by omega)
    have hsplit := pySplitColonAux_one_colon mid.data [] h
    simp only [loadModelFromHuggingface, hcont, if_true, pySplitColon,
      hsplit, List.reverse_nil, List.nil_append]
    exact ⟨_, rfl, rfl, rfl⟩
  · intro h
    have hcont := countColon_pos_contains mid.data (by omega)
    obtain ⟨u, v, w, huvw⟩ := pySplitColonAux_two_colons mid.data [] h
    simp only [loadModelFromHuggingface, hcont, if_true, pySplitColon, huvw]

/-- A hub environment for exercising the colon-qualifier path. -/
def hubEnvQual : HubEnv :=
  { tars := [], downloadDir := "/dl", extractedEntries := [] }

/-- Witness for `colon_qualifier_handling` at concrete identifiers. -/
theorem colon_qualifier_handling_witness :
    (∃ r, loadModelFromHuggingface hubEnvQual "org/repo:model.tar.gz" = .ok r ∧
      r.repoId = String.mk ("org/repo:model.tar.gz".data.takeWhile notColon) ∧
      r.fileId =
        String.mk (("org/repo:model.tar.gz".data.dropWhile notColon).tail)) ∧
    loadModelFromHuggingface hubEnvQual "a:b:c" =
      .error .unpackValueError :=
  ⟨(colon_qualifier_handling hubEnvQual "org/repo:model.tar.gz").1 (by decide),
   (colon_qualifier_handling hubEnvQual "a:b:c").2 (by decide)⟩
